import Mathlib

/-!
Verification of the Courtney transport relay layer.

This file gives a shallow embedding of the two components the claims are
about, translated from the repository source:

* the reconnecting WebSocket client (`GLaDOSWebSocket`): its state fields,
  its event handlers (`onopen`, `onmessage`, `onclose`), `scheduleReconnect`,
  `send` and the outbound helpers, `disconnect`, the listener registry
  (`on`, `emit`);
* the TCP stream proxy (`handleConnection` in `k8s-proxy/main.go`, and the
  variant of the same function in the second proxy source file which also
  tunes the TCP sockets), modelled as the set of action traces a single
  connection can produce, together with the process-wide counters.

`Math.pow(1.5, n)` is modelled exactly in ℚ: for every exponent at which the
un-capped value is below the 30000 cap, the double value is an exact dyadic
rational, so the ℚ model and the JavaScript produce identical delays.
-/

namespace Courtney

/-- One JSON message on the front-side connection.  Optional fields model the
type-specific JSON keys; a key absent from the object is `none`. -/
structure Msg where
  type : String
  status : Option String := none
  message : Option String := none
  user_id : Option String := none
  username : Option String := none
  data : Option String := none
  format : Option String := none
  sampleRate : Option Nat := none
  offset : Option Nat := none
  limit : Option Nat := none
deriving DecidableEq, Repr

/-- `WebSocket.readyState` of the underlying transport. -/
inductive WsState where
  | connecting
  | opened
  | closing
  | closed
deriving DecidableEq, Repr

/-- The mutable fields of `GLaDOSWebSocket` (constructor plus `this.token`).
`ws = none` models `this.ws === null`; `ws = some st` models a WebSocket
object whose `readyState` is `st`. -/
structure ClientState where
  ws : Option WsState
  token : Option String
  reconnectDelay : ℚ
  maxReconnectDelay : ℚ
  shouldReconnect : Bool
  authenticated : Bool
  connectionAttempts : Nat
deriving DecidableEq, Repr

/-- The client as built by the constructor, before any `connect` call. -/
def mkClient : ClientState :=
  { ws := none, token := none, reconnectDelay := 1000, maxReconnectDelay := 30000,
    shouldReconnect := true, authenticated := false, connectionAttempts := 0 }

/-- Events the client emits.  The events produced by the client machinery
itself (`connected`, `authenticated`, `auth_failed`, `disconnected`,
`reconnecting`, `error`) are distinguished constructors; `named t m` is the
generic `emit(msg.type, msg)` forwarding of a received message. -/
inductive CEvent where
  | connected
  | authenticatedEvt (uid uname : Option String)
  | authFailed (msg : String)
  | disconnected
  | reconnecting (delay : ℚ) (attempt : Nat)
  | errorEvt (msg : String)
  | named (type : String) (m : Msg)
deriving DecidableEq, Repr

/-- Input to `onmessage`: either `JSON.parse` succeeded with message `m`, or
it threw. -/
inductive Incoming where
  | parseFail
  | parsed (m : Msg)
deriving DecidableEq, Repr

/-- `onmessage` handler: parse, special-case `auth_response`, then forward
the message under its own type name.  A parse failure only emits `error`. -/
def onmessage (s : ClientState) : Incoming → ClientState × List CEvent
  | .parseFail => (s, [.errorEvt "Failed to parse server message"])
  | .parsed m =>
    if m.type = "auth_response" then
      if m.status = some "ok" then
        ({ s with authenticated := true },
         [.authenticatedEvt m.user_id m.username, .named m.type m])
      else
        ({ s with authenticated := false, shouldReconnect := false },
         [.authFailed (m.message.getD "Authentication failed"), .named m.type m])
    else
      (s, [.named m.type m])

/-- `scheduleReconnect`: bump the attempt counter, compute the capped
exponential delay, emit `reconnecting`.  Note the source never writes the
computed delay back into `this.reconnectDelay`. -/
def scheduleReconnect (s : ClientState) : ClientState × List CEvent :=
  let attempts := s.connectionAttempts + 1
  let delay := min (s.reconnectDelay * (3 / 2 : ℚ) ^ (attempts - 1)) s.maxReconnectDelay
  ({ s with connectionAttempts := attempts }, [.reconnecting delay attempts])

/-- Body of `connect(token)`: store the token, re-arm reconnection, build the
WebSocket.  `ctorOk = false` models the `new WebSocket` constructor throwing,
in which case `this.ws` is not reassigned and an `error` event is emitted. -/
def connectImpl (s : ClientState) (tok : String) (ctorOk : Bool) :
    ClientState × List CEvent :=
  let s1 := { s with token := some tok, shouldReconnect := true }
  if ctorOk then
    ({ s1 with ws := some .connecting }, [])
  else
    (s1, [.errorEvt "Failed to create WebSocket connection"])

/-- `onopen` handler: the socket is now OPEN, the failure counters reset, the
`auth` envelope is sent (state-free in this model), `connected` is emitted. -/
def onopenStep (s : ClientState) : ClientState × List CEvent :=
  ({ s with ws := some .opened, connectionAttempts := 0, reconnectDelay := 1000 },
   [.connected])

/-- `onclose` handler: clear `authenticated`, emit `disconnected`, and iff
`shouldReconnect` run `scheduleReconnect`.  The handler does not assign
`this.ws`; the object it fired on (if still referenced) is now CLOSED. -/
def oncloseStep (s : ClientState) : ClientState × List CEvent :=
  let s1 := { s with authenticated := false, ws := s.ws.map fun _ => WsState.closed }
  if s1.shouldReconnect then
    let (s2, evs) := scheduleReconnect s1
    (s2, .disconnected :: evs)
  else
    (s1, [.disconnected])

/-- The `setTimeout` callback of `scheduleReconnect`: reconnect only if
`shouldReconnect` still holds and a token is stored, else no-op. -/
def timerFireStep (s : ClientState) (ctorOk : Bool) : ClientState × List CEvent :=
  match s.token with
  | some tok => if s.shouldReconnect then connectImpl s tok ctorOk else (s, [])
  | none => (s, [])

/-- `disconnect(permanent)`: `shouldReconnect := !permanent`, then close and
null out the WebSocket if one exists. -/
def disconnectImpl (s : ClientState) (permanent : Bool) : ClientState × List CEvent :=
  let s1 := { s with shouldReconnect := !permanent }
  match s1.ws with
  | some _ => ({ s1 with ws := none }, [])
  | none => (s1, [])

/-- The atomic steps of a client execution: caller API calls (`connect`,
`disconnect`), transport callbacks (`onopen`, `onmessage`, `onerror`,
`onclose`), and the firing of a scheduled retry timer. -/
inductive Step where
  | connectCall (tok : String) (ctorOk : Bool)
  | openOk
  | recv (inc : Incoming)
  | socketError
  | closeEvt
  | timerFire (ctorOk : Bool)
  | disconnectCall (permanent : Bool)
deriving DecidableEq, Repr

/-- One step of the client state machine, returning the emitted events. -/
def step (s : ClientState) : Step → ClientState × List CEvent
  | .connectCall tok ctorOk => connectImpl s tok ctorOk
  | .openOk => onopenStep s
  | .recv inc => onmessage s inc
  | .socketError => (s, [.errorEvt "WebSocket connection error"])
  | .closeEvt => oncloseStep s
  | .timerFire ctorOk => timerFireStep s ctorOk
  | .disconnectCall p => disconnectImpl s p

/-- Run a list of steps, concatenating the emitted events in order. -/
def runSteps (s : ClientState) : List Step → ClientState × List CEvent
  | [] => (s, [])
  | st :: rest =>
    ((runSteps (step s st).1 rest).1,
     (step s st).2 ++ (runSteps (step s st).1 rest).2)

/-- Is this step an explicit `connect` call by the caller? -/
def isConnectCall : Step → Bool
  | .connectCall _ _ => true
  | _ => false

/-- Is this event the scheduled-retry `reconnecting` event? -/
def isReconnectingEvt : CEvent → Bool
  | .reconnecting _ _ => true
  | _ => false

/-- The delays carried by the `reconnecting` events of an event list. -/
def reconnectDelays (evs : List CEvent) : List ℚ :=
  evs.filterMap fun e =>
    match e with
    | .reconnecting d _ => some d
    | _ => none

/-! ### Outbound helpers (`send`, `sendText`, `sendAudio`, `requestHistory`) -/

/-- Result of `send`: the boolean return value, the envelope actually handed
to `ws.send` (if any — the client has no outbound buffer), and any events
emitted.  `send` does not mutate the client state. -/
structure SendResult where
  ok : Bool
  sent : Option Msg
  events : List CEvent
deriving DecidableEq, Repr

/-- `send(message)`: only sends when `this.ws` exists and its `readyState` is
OPEN; `sendThrows` models `ws.send`/`JSON.stringify` raising.  The
`authenticated` flag is not consulted. -/
def send (s : ClientState) (sendThrows : Bool) (m : Msg) : SendResult :=
  if s.ws = some WsState.opened then
    if sendThrows then
      { ok := false, sent := none, events := [.errorEvt "Failed to send message"] }
    else
      { ok := true, sent := some m, events := [] }
  else
    { ok := false, sent := none, events := [] }

/-- `sendText(text)`. -/
def sendText (s : ClientState) (sendThrows : Bool) (text : String) : SendResult :=
  send s sendThrows { type := "text", message := some text }

/-- `sendAudio(audioData, format, sampleRate)`. -/
def sendAudio (s : ClientState) (sendThrows : Bool) (audioData : String)
    (format : String) (sampleRate : Nat) : SendResult :=
  send s sendThrows
    { type := "audio", data := some audioData, format := some format,
      sampleRate := some sampleRate }

/-- `requestHistory(offset, limit)`. -/
def requestHistory (s : ClientState) (sendThrows : Bool) (off lim : Nat) : SendResult :=
  send s sendThrows { type := "history_request", offset := some off, limit := some lim }

/-- `isReady()`: transport exists, readyState is OPEN, and authenticated. -/
def isReady (s : ClientState) : Bool :=
  (s.ws == some WsState.opened) && s.authenticated

/-! ### Listener registry (`on` / `emit`)

A callback is modelled by the observable it produces when invoked (its
identifier, appended to an invocation log) and whether it then throws. -/

/-- A registered callback: `hid` identifies it in the invocation log,
`throwsErr` says whether invoking it raises an exception. -/
structure Handler where
  hid : Nat
  throwsErr : Bool
deriving DecidableEq, Repr

/-- `this.listeners`: a JS object mapping event names to arrays of
callbacks; a missing key reads as the empty array. -/
def Listeners := String → List Handler

/-- The empty `this.listeners` object. -/
def noListeners : Listeners := fun _ => []

/-- `on(event, callback)`: push the callback onto the event's array. -/
def onReg (ls : Listeners) (event : String) (cb : Handler) : Listeners :=
  fun e => if e = event then ls e ++ [cb] else ls e

/-- Register a sequence of `(event, callback)` pairs in order. -/
def registerAll (ls : Listeners) : List (String × Handler) → Listeners
  | [] => ls
  | (e, cb) :: rest => registerAll (onReg ls e cb) rest

/-- Invoking one callback: it records its identifier in the log and then
either returns normally or raises. -/
def invokeCallback (h : Handler) (log : List Nat) :
    List Nat × Except String Unit :=
  (log ++ [h.hid],
   if h.throwsErr then Except.error "listener exception" else Except.ok ())

/-- The `forEach` loop body of `emit`: `try { callback(data) } catch (error)
{ console.error(...) }` — on a raised exception the loop logs and moves to
the next callback exactly as on a normal return. -/
def emitLoop : List Handler → List Nat → List Nat
  | [], log => log
  | h :: rest, log =>
    let (log1, r) := invokeCallback h log
    match r with
    | .ok _ => emitLoop rest log1
    | .error _ => emitLoop rest log1

/-- `emit(event, data)`: invoke every callback registered for `event`.  The
result is the invocation log; the function is total, so no callback
exception escapes to the caller of `emit`. -/
def emit (ls : Listeners) (event : String) : List Nat :=
  emitLoop (ls event) []

/-! ### The TCP stream proxy

`handleConnection` is embedded as the set of observable action traces one
accepted connection can produce.  Each of the two copy directions is a fixed
action sequence; their concurrent execution is the set of order-preserving
interleavings of the two sequences. -/

/-- The two TCP legs of a proxied connection. -/
inductive Side where
  | client
  | target
deriving DecidableEq, Repr

/-- The two copy directions. -/
inductive Dir where
  | clientToTarget
  | targetToClient
deriving DecidableEq, Repr

/-- Observable actions of `handleConnection` on the counters and sockets. -/
inductive PAct where
  | incTotalConns
  | incActiveConns
  | decActiveConns
  | dialOk
  | dialFail
  | setNoDelay (s : Side)
  | setKeepAlive (s : Side)
  | setKeepAlivePeriod (s : Side)
  | copyDone (d : Dir) (n : Nat)
  | closeWrite (s : Side)
  | closeConn (s : Side)
  | addTotalBytes (n : Nat)
deriving DecidableEq, Repr

/-- The process-wide counters `activeConns`, `totalConns`, `totalBytes`. -/
structure Counters where
  activeConns : ℤ
  totalConns : ℤ
  totalBytes : ℤ
deriving DecidableEq, Repr

/-- Effect of one action on the counters. -/
def applyAct (c : Counters) : PAct → Counters
  | .incTotalConns => { c with totalConns := c.totalConns + 1 }
  | .incActiveConns => { c with activeConns := c.activeConns + 1 }
  | .decActiveConns => { c with activeConns := c.activeConns - 1 }
  | .addTotalBytes n => { c with totalBytes := c.totalBytes + n }
  | _ => c

/-- Effect of a whole trace on the counters. -/
def runActs (c : Counters) (tr : List PAct) : Counters :=
  tr.foldl applyAct c

/-- All order-preserving interleavings of two sequences (the possible
schedules of two concurrent tasks). -/
def interleavings : List α → List α → List (List α)
  | [], ys => [ys]
  | x :: xs, [] => [x :: xs]
  | x :: xs, y :: ys =>
    (interleavings xs (y :: ys)).map (x :: ·) ++
      (interleavings (x :: xs) ys).map (y :: ·)
termination_by xs ys => xs.length + ys.length

/-- First lines of `handleConnection`: count the connection and mark it
active (`decActiveConns` is deferred to function return). -/
def connAccept : List PAct := [.incTotalConns, .incActiveConns]

/-- Trace of `handleConnection` when the dial to the target fails: close the
client connection and return (running the deferred decrement). -/
def dialFailTrace : List PAct :=
  connAccept ++ [.dialFail, .closeConn .client, .decActiveConns]

/-- The client→target copy goroutine: the copy finishes having moved `n`
bytes (recorded in `bytesIn`), then the target's write side is closed. -/
def copyC2T (n : Nat) : List PAct :=
  [.copyDone .clientToTarget n, .closeWrite .target]

/-- The target→client copy: `n` bytes moved (recorded in `bytesOut`), then
the client's write side is closed. -/
def copyT2C (n : Nat) : List PAct :=
  [.copyDone .targetToClient n, .closeWrite .client]

/-- After both directions have completed (`wg.Wait()` in `main.go`,
`<-done` in the variant): fully close both connections, add
`bytesIn + bytesOut` to `totalBytes` once, run the deferred decrement. -/
def connFinish (c2t t2c : Nat) : List PAct :=
  [.closeConn .client, .closeConn .target, .addTotalBytes (c2t + t2c),
   .decActiveConns]

/-- All traces of `handleConnection` in `k8s-proxy/main.go` for a connection
whose dial succeeds and whose directions move `c2t` and `t2c` bytes: the
fixed opening, any interleaving of the two concurrent copies, the fixed
completion. -/
def proxyConnTraces (c2t t2c : Nat) : List (List PAct) :=
  (interleavings (copyC2T c2t) (copyT2C t2c)).map fun l =>
    connAccept ++ [.dialOk] ++ l ++ connFinish c2t t2c

/-- Socket tuning done by the `handleConnection` variant (second proxy
source file) on one leg: disable Nagle, enable keep-alive with a 30s
period. -/
def tuneConn (s : Side) : List PAct :=
  [.setNoDelay s, .setKeepAlive s, .setKeepAlivePeriod s]

/-- All traces of the `handleConnection` variant that tunes both sockets
after a successful dial and before starting the bidirectional copy. -/
def proxyConnTracesV2 (c2t t2c : Nat) : List (List PAct) :=
  (interleavings (copyC2T c2t) (copyT2C t2c)).map fun l =>
    connAccept ++ [.dialOk] ++ tuneConn .client ++ tuneConn .target ++ l ++
      connFinish c2t t2c

/-- The schedule in which each direction runs to completion in sequence;
used as a concrete member of the trace sets. -/
def canonicalTrace (c2t t2c : Nat) : List PAct :=
  connAccept ++ [.dialOk] ++ (copyC2T c2t ++ copyT2C t2c) ++ connFinish c2t t2c

/-- Does the action fully close one of the connections? -/
def isCloseConn : PAct → Bool
  | .closeConn _ => true
  | _ => false

/-- Is the action the completion of direction `d`? -/
def isCopyDone (d : Dir) : PAct → Bool
  | .copyDone e _ => decide (e = d)
  | _ => false

/-- Is the action a half-close of side `s`'s write direction? -/
def isCloseWrite (s : Side) : PAct → Bool
  | .closeWrite t => decide (t = s)
  | _ => false

/-- Is the action a `SetNoDelay` on side `s`? -/
def isSetNoDelay (s : Side) : PAct → Bool
  | .setNoDelay t => decide (t = s)
  | _ => false

/-- Is the action a `SetKeepAlive` on side `s`? -/
def isSetKeepAlive (s : Side) : PAct → Bool
  | .setKeepAlive t => decide (t = s)
  | _ => false

/-- Is the action the one-time accumulation into `totalBytes`? -/
def isAddBytes : PAct → Bool
  | .addTotalBytes _ => true
  | _ => false

/-- The bytes an action adds to `totalBytes`, if any. -/
def addedBytes : PAct → Option ℤ
  | .addTotalBytes n => some (n : ℤ)
  | _ => none

/-- The spec's closed-form delay for the `(k+1)`-st consecutive failure:
`min(1000 · 1.5^k, 30000)` (0-based `k`); stated from the spec's formula to
be compared with the delays the embedded client actually schedules. -/
def specDelay (k : Nat) : ℚ :=
  min ((1000 : ℚ) * (3 / 2) ^ k) 30000

/-- The sequential schedule of the socket-tuning `handleConnection`
variant. -/
def canonicalTraceV2 (c2t t2c : Nat) : List PAct :=
  connAccept ++ [.dialOk] ++ tuneConn .client ++ tuneConn .target ++
    (copyC2T c2t ++ copyT2C t2c) ++ connFinish c2t t2c

/-! ## Helper lemmas -/

/-- Closed form of the interleavings of two two-element sequences. -/
theorem interleavings_two (a b c d : α) :
    interleavings [a, b] [c, d] =
      [[a, b, c, d], [a, c, b, d], [a, c, d, b],
       [c, a, b, d], [c, a, d, b], [c, d, a, b]] := by
  simp [interleavings]

/-- The `emit` loop invokes every callback of its list in order, appending
to the log, whether or not earlier callbacks raised. -/
theorem emitLoop_eq (hs : List Handler) (log : List Nat) :
    emitLoop hs log = log ++ hs.map Handler.hid := by
  induction hs generalizing log with
  | nil => simp [emitLoop]
  | cons h rest ih =>
    by_cases hthr : h.throwsErr <;>
      simp [emitLoop, invokeCallback, hthr, ih]

/-- Registration builds, for each event name, the list of callbacks
registered under that name, in registration order. -/
theorem registerAll_apply (regs : List (String × Handler)) (ls : Listeners)
    (e : String) :
    registerAll ls regs e =
      ls e ++ (regs.filter fun p => p.1 = e).map Prod.snd := by
  induction regs generalizing ls with
  | nil => simp [registerAll]
  | cons p rest ih =>
    obtain ⟨pe, pcb⟩ := p
    rw [registerAll, ih, List.filter_cons]
    by_cases hpe : pe = e
    · subst hpe
      simp [onReg]
    · simp [onReg, hpe, Ne.symm hpe]

/-! ## Claims -/

/-- C8: on any successful transport open, `connectionAttempts` is reset to 0
and `reconnectDelay` to the base 1000 ms, whatever the prior state (so
regardless of how many failures preceded the open); `connected` is
emitted. -/
theorem c8_open_resets (s : ClientState) :
    (step s .openOk).1.connectionAttempts = 0 ∧
      (step s .openOk).1.reconnectDelay = 1000 ∧
      (step s .openOk).2 = [CEvent.connected] := by
  simp [step, onopenStep]

/-- C10: a parsed message is always forwarded as an event named by its
`type` field carrying the whole message; `auth_response` additionally
derives `authenticated` (status `ok`) or `auth_failed` (any other status)
first; a parse failure emits only `error` and leaves the state — in
particular the open transport — untouched. -/
theorem c10_onmessage_dispatch (s : ClientState) (m : Msg) :
    (m.type = "auth_response" → m.status = some "ok" →
      onmessage s (.parsed m) =
        ({ s with authenticated := true },
         [.authenticatedEvt m.user_id m.username, .named "auth_response" m])) ∧
    (m.type = "auth_response" → m.status ≠ some "ok" →
      onmessage s (.parsed m) =
        ({ s with authenticated := false, shouldReconnect := false },
         [.authFailed (m.message.getD "Authentication failed"),
          .named "auth_response" m])) ∧
    (m.type ≠ "auth_response" →
      onmessage s (.parsed m) = (s, [.named m.type m])) ∧
    (CEvent.named m.type m ∈ (onmessage s (.parsed m)).2) ∧
    (onmessage s .parseFail = (s, [.errorEvt "Failed to parse server message"])) := by
  refine ⟨fun h1 h2 => by simp [onmessage, h1, h2],
          fun h1 h2 => by simp [onmessage, h1, h2],
          fun h1 => by simp [onmessage, h1], ?_, rfl⟩
  by_cases h1 : m.type = "auth_response"
  · by_cases h2 : m.status = some "ok" <;> simp [onmessage, h1, h2]
  · simp [onmessage, h1]

/-- Witness for C10 at a concrete rejected `auth_response`. -/
theorem c10_onmessage_dispatch_witness :
    onmessage mkClient
        (.parsed { type := "auth_response", status := some "denied",
                   message := some "bad token" }) =
      ({ mkClient with authenticated := false, shouldReconnect := false },
       [.authFailed "bad token",
        .named "auth_response"
          { type := "auth_response", status := some "denied",
            message := some "bad token" }]) :=
  (c10_onmessage_dispatch mkClient
      { type := "auth_response", status := some "denied",
        message := some "bad token" }).2.1 rfl (by decide)

/-- C9: `emit` invokes exactly the callbacks registered for the event, in
registration order, and a callback that raises neither stops later
callbacks from being invoked nor makes `emit` itself raise (`emit` is a
total function into invocation logs; the catch branch of its loop continues
identically to the normal branch). -/
theorem c9_emit_in_order (regs : List (String × Handler)) (e : String) :
    emit (registerAll noListeners regs) e =
      (regs.filter fun p => p.1 = e).map fun p => p.2.hid := by
  simp [emit, emitLoop_eq, registerAll_apply, noListeners, List.map_map]

/-- C3 counterexample: with the transport OPEN but `authenticated = false`
the session is not ready (`isReady` is false), yet `sendText` does send its
envelope and returns `true` — `send` never consults `authenticated`. -/
theorem c3_counterexample :
    isReady { mkClient with ws := some WsState.opened } = false ∧
      (sendText { mkClient with ws := some WsState.opened } false "hi").ok = true ∧
      (sendText { mkClient with ws := some WsState.opened } false "hi").sent =
        some { type := "text", message := some "hi" } :=
  ⟨rfl, rfl, rfl⟩

/-- C3 amended: whenever the transport is not open (`ws` null or
`readyState ≠ OPEN`), each of `sendText`, `sendAudio`, `requestHistory`
performs no send and returns failure, and nothing is buffered (the model
records every send; none is recorded).  The `authenticated` flag is not
part of the check. -/
theorem c3_not_open_no_send (s : ClientState) (hws : s.ws ≠ some WsState.opened)
    (thr : Bool) (text audioData fmt : String) (sr off lim : Nat) :
    sendText s thr text = { ok := false, sent := none, events := [] } ∧
      sendAudio s thr audioData fmt sr = { ok := false, sent := none, events := [] } ∧
      requestHistory s thr off lim = { ok := false, sent := none, events := [] } := by
  simp [sendText, sendAudio, requestHistory, send, hws]

/-- Witness for C3 amended at the freshly constructed client (no ws). -/
theorem c3_not_open_no_send_witness :
    sendText mkClient false "hi" = { ok := false, sent := none, events := [] } :=
  (c3_not_open_no_send mkClient (by decide) false "hi" "a" "pcm_s16le" 16000 0 50).1

/-- One step that is neither a `connect` call nor `disconnect(false)`
preserves a cleared `shouldReconnect` flag and emits no scheduled-retry
`reconnecting` event. -/
theorem step_preserves_no_reconnect (s : ClientState) (st : Step)
    (hs : s.shouldReconnect = false) (hc : isConnectCall st = false)
    (hd : st ≠ .disconnectCall false) :
    (step s st).1.shouldReconnect = false ∧
      ∀ e ∈ (step s st).2, isReconnectingEvt e = false := by
  cases st with
  | connectCall tok ctorOk => simp [isConnectCall] at hc
  | openOk => simp [step, onopenStep, hs, isReconnectingEvt]
  | recv inc =>
    cases inc with
    | parseFail => simp [step, onmessage, hs, isReconnectingEvt]
    | parsed m =>
      by_cases h1 : m.type = "auth_response"
      · by_cases h2 : m.status = some "ok" <;>
          simp [step, onmessage, h1, h2, hs, isReconnectingEvt]
      · simp [step, onmessage, h1, hs, isReconnectingEvt]
  | socketError => simp [step, hs, isReconnectingEvt]
  | closeEvt => simp [step, oncloseStep, hs, isReconnectingEvt]
  | timerFire ctorOk =>
    cases htok : s.token <;> simp [step, timerFireStep, htok, hs, isReconnectingEvt]
  | disconnectCall p =>
    cases p with
    | false => exact absurd rfl hd
    | true =>
      cases hws : s.ws <;> simp [step, disconnectImpl, hws, isReconnectingEvt]

/-- C2 amended: emitting `auth_failed` clears `shouldReconnect`, and so does
`disconnect(true)`; and from any state with `shouldReconnect = false`, any
run of steps containing no `connect` call and no `disconnect(false)` call
emits no `reconnecting` event and leaves `shouldReconnect` cleared — in
particular a pending retry timer that fires is a no-op.  (The original
claim omitted the `disconnect(false)` exception; see the
counterexample.) -/
theorem c2_terminal_no_reconnect :
    (∀ (s : ClientState) (m : Msg), m.type = "auth_response" →
        m.status ≠ some "ok" →
        (step s (.recv (.parsed m))).1.shouldReconnect = false ∧
          CEvent.authFailed (m.message.getD "Authentication failed") ∈
            (step s (.recv (.parsed m))).2) ∧
    (∀ s : ClientState, (step s (.disconnectCall true)).1.shouldReconnect = false) ∧
    (∀ (s : ClientState) (steps : List Step), s.shouldReconnect = false →
        (∀ st ∈ steps, isConnectCall st = false ∧ st ≠ Step.disconnectCall false) →
        (runSteps s steps).1.shouldReconnect = false ∧
          ∀ e ∈ (runSteps s steps).2, isReconnectingEvt e = false) := by
  refine ⟨fun s m h1 h2 => by simp [step, onmessage, h1, h2],
          fun s => by cases hws : s.ws <;> simp [step, disconnectImpl, hws],
          fun s steps => ?_⟩
  induction steps generalizing s with
  | nil => intro hs _; simpa [runSteps] using hs
  | cons st rest ih =>
    intro hs hc
    obtain ⟨h1, h2⟩ := hc st (by simp)
    obtain ⟨hsr, hev⟩ := step_preserves_no_reconnect s st hs h1 h2
    obtain ⟨ih1, ih2⟩ := ih _ hsr fun st2 hmem => hc st2 (by simp [hmem])
    refine ⟨by simpa [runSteps] using ih1, ?_⟩
    intro e he
    rw [runSteps] at he
    rcases List.mem_append.mp he with h | h
    · exact hev e h
    · exact ih2 e h

/-- Witness for C2 amended: a terminal state followed by a close, a timer
firing, and a socket error emits only `disconnected` and `error` — no
`reconnecting`. -/
theorem c2_terminal_no_reconnect_witness :
    (runSteps { mkClient with shouldReconnect := false, token := some "t" }
        [.closeEvt, .timerFire true, .socketError]).1.shouldReconnect = false ∧
      ((runSteps { mkClient with shouldReconnect := false, token := some "t" }
          [.closeEvt, .timerFire true, .socketError]).2.all
        fun e => !isReconnectingEvt e) = true := by
  have h := c2_terminal_no_reconnect.2.2
    { mkClient with shouldReconnect := false, token := some "t" }
    [.closeEvt, .timerFire true, .socketError] rfl (by decide)
  exact ⟨h.1, List.all_eq_true.mpr fun e he => by simp [h.2 e he]⟩

/-- C2 counterexample: after `auth_failed`, a `disconnect(false)` call (no
`connect` call anywhere) re-arms `shouldReconnect`, so the following close
schedules a retry and `reconnecting` is emitted. -/
theorem c2_counterexample :
    (runSteps { mkClient with ws := some WsState.opened, authenticated := true, token := some "t" }
        [.recv (.parsed { type := "auth_response", status := some "denied",
                          message := some "bad token" }),
         .disconnectCall false, .closeEvt]).2 =
      [.authFailed "bad token",
       .named "auth_response"
         { type := "auth_response", status := some "denied",
           message := some "bad token" },
       .disconnected, .reconnecting 1000 1] ∧
      (([.recv (.parsed { type := "auth_response", status := some "denied",
                          message := some "bad token" }),
         .disconnectCall false, .closeEvt] : List Step).all
        fun st => !isConnectCall st) = true := by
  constructor
  · simp [runSteps, step, onmessage, disconnectImpl, oncloseStep,
      scheduleReconnect, mkClient]
    norm_num
  · decide

/-- In a run of `n` consecutive drops with no intervening open, starting
from attempt count `a` with the base delay stored, the scheduled delays are
`specDelay a, specDelay (a+1), …`. -/
theorem consecutive_fail_delays (n : Nat) :
    ∀ (s : ClientState) (a : Nat), s.reconnectDelay = 1000 →
      s.maxReconnectDelay = 30000 → s.connectionAttempts = a →
      s.shouldReconnect = true → s.ws = none →
      reconnectDelays (runSteps s (List.replicate n .closeEvt)).2 =
        (List.range n).map fun k => specDelay (a + k) := by
  induction n with
  | zero => intro s a _ _ _ _ _; simp [runSteps, reconnectDelays]
  | succ n ih =>
    intro s a h1 h2 h3 h4 h5
    rw [List.replicate_succ, runSteps]
    have hstep : step s .closeEvt =
        ({ s with authenticated := false, ws := none, connectionAttempts := a + 1 },
         [.disconnected, .reconnecting (specDelay a) (a + 1)]) := by
      simp [step, oncloseStep, scheduleReconnect, h1, h2, h3, h4, h5, specDelay]
    rw [hstep]
    have hrest :=
      ih { s with authenticated := false, ws := none, connectionAttempts := a + 1 }
        (a + 1) h1 h2 rfl h4 rfl
    simp only [reconnectDelays, List.filterMap_append] at hrest ⊢
    rw [hrest, List.range_succ_eq_map, List.map_cons, List.map_map]
    simp only [List.filterMap_cons, List.filterMap_nil, Nat.add_zero,
      List.nil_append, List.cons_append, List.singleton_append]
    refine congrArg (specDelay a :: ·) ?_
    exact List.map_congr_left fun k _ => congrArg specDelay (by omega)

/-- C1 amended: the delay scheduled on the `n`-th consecutive failure is
`min(1000 · 1.5^(n-1), 30000)` ms, giving 1000, 1500, 2250, 3375, …; the
cap 30000 is reached from attempt 10 onward (attempt 9 schedules
25628.90625 ms, see the counterexample). -/
theorem c1_backoff_delays (s : ClientState) (h1 : s.reconnectDelay = 1000)
    (h2 : s.maxReconnectDelay = 30000) (h3 : s.connectionAttempts = 0)
    (h4 : s.shouldReconnect = true) (h5 : s.ws = none) (n : Nat) :
    reconnectDelays (runSteps s (List.replicate n .closeEvt)).2 =
      (List.range n).map specDelay ∧
      (∀ k, 9 ≤ k → specDelay k = 30000) ∧
      specDelay 0 = 1000 ∧ specDelay 1 = 1500 ∧ specDelay 2 = 2250 ∧
      specDelay 3 = 3375 := by
  refine ⟨?_, ?_, by norm_num [specDelay], by norm_num [specDelay],
    by norm_num [specDelay], by norm_num [specDelay]⟩
  · simpa using consecutive_fail_delays n s 0 h1 h2 h3 h4 h5
  · intro k hk
    have hpow : ((3 : ℚ) / 2) ^ 9 ≤ (3 / 2 : ℚ) ^ k :=
      pow_le_pow_right₀ (by norm_num) hk
    have : (30000 : ℚ) ≤ 1000 * (3 / 2) ^ k := by
      calc (30000 : ℚ) ≤ 1000 * (3 / 2) ^ 9 := by norm_num
        _ ≤ 1000 * (3 / 2) ^ k := by nlinarith
    simpa [specDelay] using min_eq_right this

/-- Witness for C1 amended: the first four consecutive-failure delays from a
fresh client are exactly 1000, 1500, 2250, 3375 ms. -/
theorem c1_backoff_delays_witness :
    reconnectDelays (runSteps mkClient (List.replicate 4 .closeEvt)).2 =
      [1000, 1500, 2250, 3375] := by
  have h := (c1_backoff_delays mkClient rfl rfl rfl rfl rfl 4).1
  rw [h]
  norm_num [List.range_succ, specDelay]

/-- C1 counterexample: on the 9th consecutive failure the scheduled delay is
1000 · 1.5^8 = 25628.90625 ms, not the claimed 30000 ms. -/
theorem c1_counterexample :
    (reconnectDelays (runSteps mkClient (List.replicate 9 .closeEvt)).2).getD 8 0 =
        6561000 / 256 ∧
      ((6561000 : ℚ) / 256 ≠ 30000) := by
  constructor
  · have h := (c1_backoff_delays mkClient rfl rfl rfl rfl rfl 9).1
    rw [h]
    norm_num [List.range_succ, specDelay]
  · norm_num

/-- The sequential schedule is one of the possible traces of
`handleConnection`. -/
theorem canonicalTrace_mem (c2t t2c : Nat) :
    canonicalTrace c2t t2c ∈ proxyConnTraces c2t t2c := by
  rw [proxyConnTraces, copyC2T, copyT2C, interleavings_two]
  exact List.mem_map.mpr ⟨_, by simp [copyC2T, copyT2C], rfl⟩

/-- The sequential schedule is one of the possible traces of the
socket-tuning `handleConnection` variant. -/
theorem canonicalTraceV2_mem (c2t t2c : Nat) :
    canonicalTraceV2 c2t t2c ∈ proxyConnTracesV2 c2t t2c := by
  rw [proxyConnTracesV2, copyC2T, copyT2C, interleavings_two]
  exact List.mem_map.mpr ⟨_, by simp [copyC2T, copyT2C], rfl⟩

/-- `totalBytes` after a trace is the prior value plus everything the
trace's `addTotalBytes` actions add. -/
theorem runActs_totalBytes (tr : List PAct) :
    ∀ c : Counters, (runActs c tr).totalBytes =
      c.totalBytes + (tr.filterMap addedBytes).sum := by
  induction tr with
  | nil => intro c; simp [runActs]
  | cons a rest ih =>
    intro c
    rw [runActs, List.foldl_cons, ← runActs, ih]
    cases a <;> simp [applyAct, addedBytes, add_assoc]

/-- C4: when the dial to the target fails, `handleConnection` closes the
client connection and returns: the counters end with `totalConns` bumped by
exactly one and `activeConns` and `totalBytes` unchanged, the trace
increments `totalConns` once, contains no byte accumulation, closes the
client connection, and makes exactly one dial attempt (no retry). -/
theorem c4_dial_fail (c : Counters) :
    runActs c dialFailTrace = { c with totalConns := c.totalConns + 1 } ∧
      dialFailTrace.count PAct.incTotalConns = 1 ∧
      dialFailTrace.filter isAddBytes = [] ∧
      PAct.closeConn .client ∈ dialFailTrace ∧
      (dialFailTrace.filter fun a => a = PAct.dialOk || a = PAct.dialFail).length
        = 1 := by
  refine ⟨?_, by decide, by decide, by decide, by decide⟩
  cases c
  simp [runActs, dialFailTrace, connAccept, applyAct]

/-- C5: in every schedule of a successfully paired connection, each
direction half-closes its destination's write side only after its own copy
has completed, the full closes of both connections come after both copies
have completed, and there is a schedule in which one direction has
half-closed while the other direction's copy has not yet completed (the
other direction keeps running). -/
theorem c5_half_close_ordering (c2t t2c : Nat) (tr : List PAct)
    (h : tr ∈ proxyConnTraces c2t t2c) :
    (tr.any (isCopyDone .clientToTarget) = true ∧
      tr.any (isCopyDone .targetToClient) = true ∧
      tr.any isCloseConn = true ∧
      tr.findIdx (isCopyDone .clientToTarget) < tr.findIdx isCloseConn ∧
      tr.findIdx (isCopyDone .targetToClient) < tr.findIdx isCloseConn ∧
      tr.findIdx (isCopyDone .clientToTarget) < tr.findIdx (isCloseWrite .target) ∧
      tr.findIdx (isCopyDone .targetToClient) < tr.findIdx (isCloseWrite .client)) ∧
    ∃ tr2 ∈ proxyConnTraces c2t t2c,
      tr2.findIdx (isCloseWrite .target) <
        tr2.findIdx (isCopyDone .targetToClient) := by
  constructor
  · rw [proxyConnTraces, copyC2T, copyT2C, interleavings_two] at h
    rcases List.mem_map.mp h with ⟨l, hl, rfl⟩
    simp only [List.mem_cons, List.not_mem_nil, or_false] at hl
    rcases hl with rfl | rfl | rfl | rfl | rfl | rfl <;>
      · refine ⟨?_, ?_, ?_, ?_, ?_, ?_, ?_⟩ <;>
          simp [connAccept, connFinish, List.findIdx_cons, isCopyDone,
            isCloseConn, isCloseWrite]
  · refine ⟨canonicalTrace c2t t2c, canonicalTrace_mem c2t t2c, ?_⟩
    simp [canonicalTrace, connAccept, connFinish, copyC2T, copyT2C,
      List.findIdx_cons, isCloseWrite, isCopyDone]

/-- Witness for C5 at a concrete trace (1 byte in, 2 bytes out, sequential
schedule). -/
theorem c5_half_close_ordering_witness :
    (canonicalTrace 1 2).any (isCopyDone .clientToTarget) = true ∧
      (canonicalTrace 1 2).findIdx (isCopyDone .targetToClient) <
        (canonicalTrace 1 2).findIdx isCloseConn :=
  ⟨((c5_half_close_ordering 1 2 (canonicalTrace 1 2)
      (canonicalTrace_mem 1 2)).1).1,
   ((c5_half_close_ordering 1 2 (canonicalTrace 1 2)
      (canonicalTrace_mem 1 2)).1).2.2.2.2.1⟩

/-- C6: every schedule of a completed connection records `bytesIn + bytesOut`
into `totalBytes` in exactly one accumulation action, and after any list of
completed connections `totalBytes` has grown by the sum of
`bytesIn + bytesOut` over them. -/
theorem c6_bytes_accounting :
    (∀ (c2t t2c : Nat) (tr : List PAct), tr ∈ proxyConnTraces c2t t2c →
        tr.filter isAddBytes = [PAct.addTotalBytes (c2t + t2c)] ∧
          ∀ cs : Counters, (runActs cs tr).totalBytes =
            cs.totalBytes + (c2t + t2c)) ∧
    (∀ (ps : List (Nat × Nat)) (trs : List (List PAct)) (cs : Counters),
        List.Forall₂ (fun p tr => tr ∈ proxyConnTraces p.1 p.2) ps trs →
        (trs.foldl runActs cs).totalBytes =
          cs.totalBytes + (ps.map fun p => (p.1 : ℤ) + p.2).sum) := by
  have hone : ∀ (c2t t2c : Nat) (tr : List PAct), tr ∈ proxyConnTraces c2t t2c →
      tr.filter isAddBytes = [PAct.addTotalBytes (c2t + t2c)] ∧
        tr.filterMap addedBytes = [(c2t : ℤ) + t2c] := by
    intro c2t t2c tr h
    rw [proxyConnTraces, copyC2T, copyT2C, interleavings_two] at h
    rcases List.mem_map.mp h with ⟨l, hl, rfl⟩
    simp only [List.mem_cons, List.not_mem_nil, or_false] at hl
    rcases hl with rfl | rfl | rfl | rfl | rfl | rfl <;>
      exact ⟨by simp [connAccept, connFinish, isAddBytes, List.filter],
        by simp [connAccept, connFinish, addedBytes, List.filterMap]⟩
  have htot : ∀ (c2t t2c : Nat) (tr : List PAct), tr ∈ proxyConnTraces c2t t2c →
      ∀ cs : Counters, (runActs cs tr).totalBytes =
        cs.totalBytes + (c2t + t2c) := by
    intro c2t t2c tr h cs
    rw [runActs_totalBytes, (hone c2t t2c tr h).2]
    simp
  refine ⟨fun c2t t2c tr h => ⟨(hone c2t t2c tr h).1, htot c2t t2c tr h⟩, ?_⟩
  intro ps trs cs h
  induction h generalizing cs with
  | nil => simp
  | @cons p tr ps2 trs2 hpt hrest ih =>
    rw [List.foldl_cons, ih]
    rw [htot p.1 p.2 tr hpt cs]
    rw [List.map_cons, List.sum_cons]
    ring

/-- Witness for C6: two completed connections moving (1,2) and (3,4) bytes
grow `totalBytes` from 0 by 10. -/
theorem c6_bytes_accounting_witness :
    (([canonicalTrace 1 2, canonicalTrace 3 4].foldl runActs
        ⟨0, 0, 0⟩).totalBytes, (10 : ℤ)) = (10, 10) := by
  have h := c6_bytes_accounting.2 [(1, 2), (3, 4)]
    [canonicalTrace 1 2, canonicalTrace 3 4] ⟨0, 0, 0⟩
    (List.Forall₂.cons (canonicalTrace_mem 1 2)
      (List.Forall₂.cons (canonicalTrace_mem 3 4) List.Forall₂.nil))
  rw [Prod.mk.injEq]
  refine ⟨?_, rfl⟩
  rw [h]
  norm_num

/-- C7 counterexample: a trace of `handleConnection` in `k8s-proxy/main.go`
with a successful dial contains no `SetNoDelay` and no `SetKeepAlive`
action on either leg — that variant never tunes the sockets. -/
theorem c7_counterexample :
    canonicalTrace 0 0 ∈ proxyConnTraces 0 0 ∧
      ((canonicalTrace 0 0).all fun a =>
        !(isSetNoDelay .client a || isSetNoDelay .target a ||
          isSetKeepAlive .client a || isSetKeepAlive .target a)) = true :=
  ⟨canonicalTrace_mem 0 0, by decide⟩

/-- C7 amended: the `handleConnection` variant in the second proxy source
file enables keep-alive and disables Nagle on both the client-side and
target-side socket after a successful dial and before either copy
direction completes; the `k8s-proxy/main.go` variant sets no socket
options at all (see the counterexample). -/
theorem c7_v2_socket_options (c2t t2c : Nat) (tr : List PAct)
    (h : tr ∈ proxyConnTracesV2 c2t t2c) :
    tr.any (isSetNoDelay .client) = true ∧
      tr.any (isSetNoDelay .target) = true ∧
      tr.any (isSetKeepAlive .client) = true ∧
      tr.any (isSetKeepAlive .target) = true ∧
      tr.findIdx (isSetNoDelay .client) < tr.findIdx (isCopyDone .clientToTarget) ∧
      tr.findIdx (isSetNoDelay .target) < tr.findIdx (isCopyDone .clientToTarget) ∧
      tr.findIdx (isSetKeepAlive .client) < tr.findIdx (isCopyDone .clientToTarget) ∧
      tr.findIdx (isSetKeepAlive .target) < tr.findIdx (isCopyDone .clientToTarget) ∧
      tr.findIdx (isSetNoDelay .client) < tr.findIdx (isCopyDone .targetToClient) ∧
      tr.findIdx (isSetNoDelay .target) < tr.findIdx (isCopyDone .targetToClient) ∧
      tr.findIdx (isSetKeepAlive .client) < tr.findIdx (isCopyDone .targetToClient) ∧
      tr.findIdx (isSetKeepAlive .target) < tr.findIdx (isCopyDone .targetToClient) := by
  rw [proxyConnTracesV2, copyC2T, copyT2C, interleavings_two] at h
  rcases List.mem_map.mp h with ⟨l, hl, rfl⟩
  simp only [List.mem_cons, List.not_mem_nil, or_false] at hl
  rcases hl with rfl | rfl | rfl | rfl | rfl | rfl <;>
    · refine ⟨?_, ?_, ?_, ?_, ?_, ?_, ?_, ?_, ?_, ?_, ?_, ?_⟩ <;>
        simp [connAccept, connFinish, tuneConn, List.findIdx_cons,
          isCopyDone, isSetNoDelay, isSetKeepAlive]

/-- Witness for C7 amended at a concrete trace of the tuning variant. -/
theorem c7_v2_socket_options_witness :
    (canonicalTraceV2 1 2).any (isSetNoDelay .client) = true ∧
      (canonicalTraceV2 1 2).findIdx (isSetKeepAlive .target) <
        (canonicalTraceV2 1 2).findIdx (isCopyDone .clientToTarget) :=
  ⟨(c7_v2_socket_options 1 2 (canonicalTraceV2 1 2)
      (canonicalTraceV2_mem 1 2)).1,
   (c7_v2_socket_options 1 2 (canonicalTraceV2 1 2)
      (canonicalTraceV2_mem 1 2)).2.2.2.2.2.2.2.1⟩

end Courtney
